import Mathlib

/-!
# Verification of `lerobot/scripts/record_and_replay_teleop_dataset.py`

A shallow embedding of the data-handling core of the script: the replay
cursor (`ReplayHelper` / `get_next_action_in_episode`), the episode
recorder (`OutputHelper.save_episode_data` and the surrounding control
loop in `run_sim_while_recording_dataset`), the keyboard teleop adapter
(`set_up_keyboard_teleop`), and the observation-key classifier
(`set_up_data_keys`).

Conventions of the embedding:
* Python floats are modelled exactly over `ℚ` (the claims under study are
  about control and data flow, not rounding).
* Python operations that raise (out-of-range indexing, `timestamps[-1]` on
  an empty list, division by zero) are modelled by `Option`- or
  `Except`-valued functions returning `none` / `.error`.
* The parts of the script that are pure I/O (writing png frames, video
  files, hub uploads) are not modelled; only the values they are handed
  (e.g. the fps used to encode each episode's videos) are.
-/

namespace RecordReplay

/-- One row of a LeRobot dataset, restricted to the fields the script
reads back during replay: `dataset[i]["action"]` and
`dataset[i]["episode_index"]`. -/
structure FrameRecord where
  action : List ℚ
  episode_index : Nat
  deriving Repr, DecidableEq

/-- `ReplayHelper.get_action_at_frame`: `self.dataset[self.frame_index]["action"]`.
Out-of-range indexing raises in Python, hence `Option`. -/
def get_action_at_frame (d : List FrameRecord) (frame_index : Nat) : Option (List ℚ) :=
  d[frame_index]?.map FrameRecord.action

/-- `ReplayHelper.is_at_last_frame_in_episode`:
`dataset[frame_index]["episode_index"] != dataset[frame_index + 1]["episode_index"]`.
`none` when either access is out of range. -/
def is_at_last_frame_in_episode (d : List FrameRecord) (frame_index : Nat) : Option Bool :=
  match d[frame_index]?, d[frame_index + 1]? with
  | some r, some r' => some (r.episode_index ≠ r'.episode_index)
  | _, _ => none

/-- `ReplayHelper.is_at_last_frame_in_dataset`:
`self.dataset.num_samples - 1 == self.frame_index`, where `num_samples` is
the row count of the dataset.  Computed over `ℤ` as in Python (so an empty
dataset gives `-1 == 0`, i.e. `false`). -/
def is_at_last_frame_in_dataset (d : List FrameRecord) (frame_index : Nat) : Bool :=
  (d.length : ℤ) - 1 = (frame_index : ℤ)

/-- The replay branch of `get_next_action_in_episode` (the code run when
`replay_helper is not None`).  Input: the dataset, the cursor
`frame_index`, and the current `is_concluding_episode` / `is_stopping`
flags.  Output: the returned action, the new cursor, and the updated
flags.  `none` models a Python exception from an out-of-range dataset
access.  Mirrors the source exactly:

    action = replay_helper.get_action_at_frame()
    if replay_helper.is_at_last_frame_in_dataset:
        episode_state.is_concluding_episode = True
        episode_state.is_stopping = True
    elif replay_helper.is_at_last_frame_in_episode:
        episode_state.is_concluding_episode = True
        replay_helper.increment_frame_index()
    else:
        replay_helper.increment_frame_index()
    return action
-/
def get_next_action_in_episode (d : List FrameRecord) (frame_index : Nat)
    (is_concluding is_stopping : Bool) : Option (List ℚ × Nat × Bool × Bool) :=
  match get_action_at_frame d frame_index with
  | none => none
  | some action =>
    if is_at_last_frame_in_dataset d frame_index then
      some (action, frame_index, true, true)
    else
      match is_at_last_frame_in_episode d frame_index with
      | none => none
      | some true => some (action, frame_index + 1, true, is_stopping)
      | some false => some (action, frame_index + 1, is_concluding, is_stopping)

/-! ## The output helper (`OutputHelper`) -/

/-- The per-episode dict built by `save_episode_data` (`ep_dict`),
restricted to the per-step tensor columns.  The image columns
(`observation.image_*`) hold video-frame references and the
`observation.state` column concatenates the state observations; neither is
referenced by the claims, so they are omitted here.  All remaining columns
are built exactly as in the source. -/
structure EpDict where
  episode_index : List Nat
  frame_index : List Nat
  timestamp : List ℚ
  next_done : List Bool
  action : List (List ℚ)
  deriving Repr, DecidableEq

/-- The mutable dataset-accumulation state of `OutputHelper` that
`reset_dataset_temp_data` initialises and `save_episode_data` updates:
`ep_dicts`, `episode_data_index["from"]` / `["to"]`, `episode_fps`,
`id_from`, `id_to`. -/
structure OutputState where
  ep_dicts : List EpDict
  ep_from : List Nat
  ep_to : List Nat
  episode_fps : List ℚ
  id_from : Nat
  id_to : Nat
  deriving Repr, DecidableEq

/-- `OutputHelper.reset_dataset_temp_data`. -/
def reset_dataset_temp_data : OutputState :=
  { ep_dicts := [], ep_from := [], ep_to := [], episode_fps := [], id_from := 0, id_to := 0 }

/-- The arguments of one `save_episode_data` call that matter to the data
model: `num_steps` (the loop's `step_counter`), the recorded action
vectors, and the recorded timestamps. -/
structure EpisodeArgs where
  num_steps : Nat
  actions : List (List ℚ)
  timestamps : List ℚ
  deriving Repr, DecidableEq

/-- The ep_dict built by a successful `save_episode_data` call:
`episode_index` is `[episode_index] * num_steps`, `frame_index` is
`torch.arange(0, num_steps, 1)`, `timestamp` is the recorded timestamps,
`next.done` is `torch.zeros(num_steps, dtype=bool)` with entry `-1`
(i.e. `num_steps - 1`) set to `True`, `action` is the recorded actions. -/
def mkEpDict (e : EpisodeArgs) (episode_index : Nat) : EpDict :=
  { episode_index := List.replicate e.num_steps episode_index
    frame_index := List.range e.num_steps
    timestamp := e.timestamps
    next_done := (List.replicate e.num_steps false).set (e.num_steps - 1) true
    action := e.actions }

/-- `OutputHelper.save_episode_data`.  Returns `none` exactly when the
Python code raises: `next_done[-1] = True` raises `IndexError` for
`num_steps = 0`; `timestamps[-1]` raises `IndexError` on an empty list;
`num_steps / timestamps[-1]` raises `ZeroDivisionError` when the final
timestamp is zero.  Otherwise appends the ep_dict, the `from`/`to` range
`[id_from, id_from + num_steps)`, and the fps `num_steps / timestamps[-1]`,
then sets `id_to = id_from + num_steps; id_from = id_to`. -/
def save_episode_data (st : OutputState) (e : EpisodeArgs) (episode_index : Nat) :
    Option OutputState :=
  if e.num_steps = 0 then none
  else
    match e.timestamps.getLast? with
    | none => none
    | some lastTs =>
      if lastTs = 0 then none
      else
        some
          { ep_dicts := st.ep_dicts ++ [mkEpDict e episode_index]
            ep_from := st.ep_from ++ [st.id_from]
            ep_to := st.ep_to ++ [st.id_from + e.num_steps]
            episode_fps := st.episode_fps ++ [(e.num_steps : ℚ) / lastTs]
            id_from := st.id_from + e.num_steps
            id_to := st.id_from + e.num_steps }

/-- The precondition under which `save_episode_data` succeeds. -/
def validEp (e : EpisodeArgs) : Prop :=
  e.num_steps ≠ 0 ∧ ∃ t, e.timestamps.getLast? = some t ∧ t ≠ 0

instance (e : EpisodeArgs) : Decidable (validEp e) := by
  unfold validEp; infer_instance

/-- Modelled from the spec: `concatenate_episodes` (provided by the
dataset library, whose source is not part of the script) "concatenates all
retained episodes into one dataset", column by column.  The consolidated
`episode_index` column is the concatenation of the per-episode
`episode_index` columns; the dataset's total row count is its length. -/
def consolidatedEpisodeIndex (ds : List EpDict) : List Nat :=
  (ds.map EpDict.episode_index).flatten

/-- `OutputHelper.encode_video_frames`: one encoder invocation per
episode index and image key.  Only the values handed to the external
encoder are modelled: the episode index, the image key (which determines
the image directory and video path), and the fps `episode_fps[ep_idx]`. -/
structure VideoEncodeCall where
  ep_idx : Nat
  img_key : String
  fps : ℚ
  deriving Repr, DecidableEq

/-- `encode_video_frames`:
`for ep_idx in range(len(episode_fps)): for img_key in self.image_keys:
encode_video_frames(..., fps=episode_fps[ep_idx])`. -/
def encode_video_frames (image_keys : List String) (episode_fps : List ℚ) :
    List VideoEncodeCall :=
  (List.range episode_fps.length).flatMap fun ep_idx =>
    image_keys.map fun img_key => ⟨ep_idx, img_key, episode_fps.getD ep_idx 0⟩

/-! ## The recording control loop (`run_sim_while_recording_dataset`) -/

/-- The loop state across episodes of `run_sim_while_recording_dataset`:
the output helper's accumulation state and the local `episode_counter`. -/
structure RecordRun where
  out : OutputState
  episode_counter : Nat
  deriving Repr, DecidableEq

/-- The state of `RecordRun` right after `increment_dataset_counter`
(which calls `reset_dataset_temp_data`) and `episode_counter = 0`. -/
def initialRecordRun : RecordRun := ⟨reset_dataset_temp_data, 0⟩

/-- The tail of one outer-loop iteration of
`run_sim_while_recording_dataset`, from the end of the inner while loop:
if `episode_state.is_dropping_episode` the iteration `continue`s (no save,
`episode_counter` untouched); otherwise `save_episode_data` is called with
`num_steps = step_counter` and `episode_index = episode_counter`, and
`episode_counter` is incremented. -/
def concludeEpisodeIteration (r : RecordRun) (is_dropping : Bool) (e : EpisodeArgs) :
    Option RecordRun :=
  if is_dropping then some r
  else
    match save_episode_data r.out e r.episode_counter with
    | none => none
    | some out' => some ⟨out', r.episode_counter + 1⟩

/-- The outer loop of `run_sim_while_recording_dataset`, abstracted over
the per-episode outcomes: each element gives the value of the
`is_dropping_episode` flag when the inner loop exits together with the
episode buffers handed to `save_episode_data`. -/
def runRecordLoop (r : RecordRun) : List (Bool × EpisodeArgs) → Option RecordRun
  | [] => some r
  | (drop, e) :: rest =>
    match concludeEpisodeIteration r drop e with
    | none => none
    | some r' => runRecordLoop r' rest

/-! ## The replay control loop

`run_sim_while_recording_dataset` with `replay_helper` set and no
asynchronous keyboard events: the inner `while not is_concluding_episode`
loop calls `get_next_action_in_episode` once per iteration (which moves
the cursor and may set the conclude/stop flags), steps the environment,
appends to the buffers, and increments `step_counter`; when the flag is
set, the episode is saved (`num_steps = step_counter`), `step_counter`
resets and the outer loop continues unless `is_stopping`.  Dropping never
occurs in replay (only the `delete` key sets `is_dropping_episode`).
Only the saved per-episode step counts are tracked here. -/

/-- The replay-mode loop state: the cursor, the inner loop's
`step_counter`, the step counts handed to `save_episode_data` so far, and
the `is_stopping` flag. -/
structure ReplayLoopState where
  frame_index : Nat
  step_counter : Nat
  saved_counts : List Nat
  stopped : Bool
  deriving Repr, DecidableEq

/-- The state at the top of `run_sim_while_recording_dataset` in replay
mode: cursor 0 (`ReplayHelper.__init__` sets `frame_index = 0`),
`step_counter = 0`, nothing saved, `is_stopping = False`. -/
def initReplayLoopState : ReplayLoopState := ⟨0, 0, [], false⟩

/-- One iteration of the inner loop body in replay mode (with the
episode hand-off when the conclude flag fires).  At the top of an inner
iteration `is_concluding_episode` and `is_stopping` are both `false`
(they guard the enclosing whiles), which is what is passed to
`get_next_action_in_episode`.  `none` models a Python exception from an
out-of-range dataset access. -/
def replayLoopIter (d : List FrameRecord) (s : ReplayLoopState) : Option ReplayLoopState :=
  if s.stopped then some s
  else
    match get_next_action_in_episode d s.frame_index false false with
    | none => none
    | some (_, fi', conclude, stop) =>
      if conclude then
        some ⟨fi', 0, s.saved_counts ++ [s.step_counter + 1], stop⟩
      else
        some ⟨fi', s.step_counter + 1, s.saved_counts, stop⟩

/-- `n` iterations of the replay loop body. -/
def runReplayLoop (d : List FrameRecord) : Nat → ReplayLoopState → Option ReplayLoopState
  | 0, s => some s
  | n + 1, s =>
    match replayLoopIter d s with
    | none => none
    | some s' => runReplayLoop d n s'

/-! ## The inner while loop's step counter (teleop or replay)

`run_sim_while_recording_dataset` sets `is_concluding_episode = False`
and `step_counter = 0` immediately before the inner loop, whose body
always runs `step_counter += 1`.  The conclude flag observed at the top
of iteration `k + 1` is abstracted as an oracle of the number of steps
taken so far (it is written asynchronously by the keyboard listener, or
by `get_next_action_in_episode` in replay mode). -/

/-- The inner `while not episode_state.is_concluding_episode` loop,
tracking only `step_counter`.  `fuel` bounds the iterations; `none`
means the loop has not concluded within `fuel` iterations. -/
def runInnerLoop (oracle : Nat → Bool) : Nat → Nat → Bool → Option Nat
  | 0, step_counter, conclude => if conclude then some step_counter else none
  | fuel + 1, step_counter, conclude =>
    if conclude then some step_counter
    else runInnerLoop oracle fuel (step_counter + 1) (oracle step_counter)

/-! ## The keyboard teleop adapter (`set_up_keyboard_teleop`) -/

/-- The shared `EpisodeState`: the teleop action vector (a numpy array in
the source, `None` outside teleop episodes) and the three lifecycle
flags. -/
structure EpisodeState where
  teleoperation_action : Option (List ℚ)
  is_dropping_episode : Bool
  is_concluding_episode : Bool
  is_stopping : Bool
  deriving Repr, DecidableEq

/-- The keys the `on_press` / `on_release` handlers distinguish; `other`
stands for any key not named in the handlers. -/
inductive TeleopKey where
  | up | down | left | right | page_up | page_down | cmd | shift
  | delete | home | endKey | esc | other
  deriving Repr, DecidableEq

/-- `episode_state.teleoperation_action[i] += delta`: `none` when the
action vector is `None` or the index is out of range (Python raises in
either case). -/
def addToAction (s : EpisodeState) (i : Nat) (delta : ℚ) : Option EpisodeState :=
  match s.teleoperation_action with
  | none => none
  | some a =>
    a[i]?.map fun v => { s with teleoperation_action := some (a.set i (v + delta)) }

/-- The `on_press` handler of `set_up_keyboard_teleop`.  Directional keys
add or subtract `0.01` on components 0-2, cmd/shift subtract or add `0.1`
on component 3, delete sets drop+conclude, home sets conclude, end sets
conclude+stop; any other key falls through all branches and changes
nothing. -/
def on_press (key : TeleopKey) (s : EpisodeState) : Option EpisodeState :=
  match key with
  | .up => addToAction s 1 (1 / 100)
  | .down => addToAction s 1 (-(1 / 100))
  | .left => addToAction s 0 (-(1 / 100))
  | .right => addToAction s 0 (1 / 100)
  | .page_down => addToAction s 2 (-(1 / 100))
  | .page_up => addToAction s 2 (1 / 100)
  | .cmd => addToAction s 3 (-(1 / 10))
  | .shift => addToAction s 3 (1 / 10)
  | .delete => some { s with is_dropping_episode := true, is_concluding_episode := true }
  | .home => some { s with is_concluding_episode := true }
  | .endKey => some { s with is_concluding_episode := true, is_stopping := true }
  | _ => some s

/-- The `on_release` handler: a release of escape sets `is_stopping`
(and stops the listener); any other release changes nothing. -/
def on_release (key : TeleopKey) (s : EpisodeState) : EpisodeState :=
  match key with
  | .esc => { s with is_stopping := true }
  | _ => s

/-! ## Observation key classification (`set_up_data_keys`) -/

/-- `OutputHelper.set_up_data_keys`.  The observation dict is modelled as
its (insertion-ordered) list of key/shape items; a value's shape is its
list of dimensions.  1-dimensional values are appended to `state_keys`,
3-dimensional ones to `image_keys`; anything else raises
`ValueError("{key} has unrecognised shape ...")`, modelled by `.error key`.
The accumulators mirror the mutated `self.state_keys` / `self.image_keys`. -/
def set_up_data_keys (observation : List (String × List Nat))
    (state_keys image_keys : List String) : Except String (List String × List String) :=
  match observation with
  | [] => .ok (state_keys, image_keys)
  | (key, shape) :: rest =>
    if shape.length = 1 then set_up_data_keys rest (state_keys ++ [key]) image_keys
    else if shape.length = 3 then set_up_data_keys rest state_keys (image_keys ++ [key])
    else .error key

/-! ## Derived closed forms

Helper definitions used to describe the result of a run of saves; they are
proof devices, derived from the definitions above, not separate models. -/

/-- The `episode_index` column of a dataset whose episodes, in order,
have the given step counts, the first episode carrying index `i`
(each saved episode contributes `[episode_index] * num_steps`). -/
def flatEpisodeIndices : List Nat → Nat → List Nat
  | [], _ => []
  | c :: cs, i => List.replicate c i ++ flatEpisodeIndices cs (i + 1)

/-- Closed form of the `episode_data_index["from"]` entries produced by a
run of saves with the given step counts, starting at row `a`. -/
def fromOffsets (a : Nat) : List Nat → List Nat
  | [] => []
  | n :: ns => a :: fromOffsets (a + n) ns

/-- Closed form of the `episode_data_index["to"]` entries produced by a
run of saves with the given step counts, starting at row `a`. -/
def toOffsets (a : Nat) : List Nat → List Nat
  | [] => []
  | n :: ns => (a + n) :: toOffsets (a + n) ns

/-- Closed form of the ep_dicts produced by consecutive saves with
episode indices `ec, ec + 1, ...`. -/
def mkEpDicts (ec : Nat) : List EpisodeArgs → List EpDict
  | [] => []
  | e :: es => mkEpDict e ec :: mkEpDicts (ec + 1) es

/-- Shift a replay-loop state's cursor by `k` rows (used to relate a run
over a dataset suffix to the run over the whole dataset). -/
def shiftFrame (k : Nat) (s : ReplayLoopState) : ReplayLoopState :=
  { s with frame_index := k + s.frame_index }

/-- The final recorded timestamp of an episode (`timestamps[-1]`),
defaulting to `0` on an empty list. -/
def lastTs (e : EpisodeArgs) : ℚ := e.timestamps.getLast?.getD 0

/-- The fps `save_episode_data` appends for an episode:
`num_steps / timestamps[-1]`. -/
def epFps (e : EpisodeArgs) : ℚ := (e.num_steps : ℚ) / lastTs e

/-! ## Concrete inputs used to instantiate the theorems -/

/-- A concrete recorded run: an episode of 2 steps followed by an episode
of 1 step. -/
def witnessEpisodes : List EpisodeArgs :=
  [⟨2, [[1], [2]], [5, 1]⟩, ⟨1, [[3]], [1]⟩]

/-- The record-loop state reached by saving `witnessEpisodes` from the
reset state (as computed by `runRecordLoop`). -/
def witnessRun : RecordRun :=
  ⟨{ ep_dicts :=
       [⟨[0, 0], [0, 1], [5, 1], [false, true], [[1], [2]]⟩,
        ⟨[1], [0], [1], [true], [[3]]⟩]
     ep_from := [0, 2]
     ep_to := [2, 3]
     episode_fps := [2, 1]
     id_from := 3
     id_to := 3 },
   2⟩

/-- The output state reached by a single save of the 2-step episode from
the reset state. -/
def witnessSaved : OutputState :=
  { ep_dicts := [⟨[0, 0], [0, 1], [5, 1], [false, true], [[1], [2]]⟩]
    ep_from := [0]
    ep_to := [2]
    episode_fps := [2]
    id_from := 2
    id_to := 2 }

/-- The ep_dict of the 2-step witness episode. -/
def witnessEpDict : EpDict := ⟨[0, 0], [0, 1], [5, 1], [false, true], [[1], [2]]⟩

/-- A three-row dataset holding episodes of 2 and 1 steps (the rows of
the witness run). -/
def witnessDataset : List FrameRecord := [⟨[1], 0⟩, ⟨[2], 0⟩, ⟨[3], 1⟩]

/-- A one-row dataset (a single episode of one step). -/
def oneRowDataset : List FrameRecord := [⟨[5], 0⟩]

/-- A teleop episode state with a zeroed 4-component action vector. -/
def witnessTeleopState : EpisodeState := ⟨some [0, 0, 0, 0], false, false, false⟩

/-! ## Lemmas: single calls of the replay cursor -/

lemma get_next_action_exhaust (d : List FrameRecord) (fi : Nat) (c s : Bool)
    (r : FrameRecord) (hr : d[fi]? = some r) (hlast : (d.length : ℤ) - 1 = (fi : ℤ)) :
    get_next_action_in_episode d fi c s = some (r.action, fi, true, true) := by
  simp [get_next_action_in_episode, get_action_at_frame, is_at_last_frame_in_dataset, hr, hlast]

lemma get_next_action_boundary (d : List FrameRecord) (fi : Nat) (c s : Bool)
    (r r' : FrameRecord) (hr : d[fi]? = some r) (hr' : d[fi + 1]? = some r')
    (hlast : (d.length : ℤ) - 1 ≠ (fi : ℤ)) (hne : r.episode_index ≠ r'.episode_index) :
    get_next_action_in_episode d fi c s = some (r.action, fi + 1, true, s) := by
  simp [get_next_action_in_episode, get_action_at_frame, is_at_last_frame_in_dataset,
    is_at_last_frame_in_episode, hr, hr', hlast, hne]

lemma get_next_action_plain (d : List FrameRecord) (fi : Nat) (c s : Bool)
    (r r' : FrameRecord) (hr : d[fi]? = some r) (hr' : d[fi + 1]? = some r')
    (hlast : (d.length : ℤ) - 1 ≠ (fi : ℤ)) (hsame : r.episode_index = r'.episode_index) :
    get_next_action_in_episode d fi c s = some (r.action, fi + 1, c, s) := by
  simp [get_next_action_in_episode, get_action_at_frame, is_at_last_frame_in_dataset,
    is_at_last_frame_in_episode, hr, hr', hlast, hsame]

/-! ## Lemmas: iterations of the replay loop -/

lemma replayLoopIter_plain (d : List FrameRecord) (f st0 : Nat) (sv : List Nat)
    (r r' : FrameRecord) (hr : d[f]? = some r) (hr' : d[f + 1]? = some r')
    (hlast : (d.length : ℤ) - 1 ≠ (f : ℤ)) (hsame : r.episode_index = r'.episode_index) :
    replayLoopIter d ⟨f, st0, sv, false⟩ = some ⟨f + 1, st0 + 1, sv, false⟩ := by
  simp [replayLoopIter, get_next_action_plain d f false false r r' hr hr' hlast hsame]

lemma replayLoopIter_boundary (d : List FrameRecord) (f st0 : Nat) (sv : List Nat)
    (r r' : FrameRecord) (hr : d[f]? = some r) (hr' : d[f + 1]? = some r')
    (hlast : (d.length : ℤ) - 1 ≠ (f : ℤ)) (hne : r.episode_index ≠ r'.episode_index) :
    replayLoopIter d ⟨f, st0, sv, false⟩ = some ⟨f + 1, 0, sv ++ [st0 + 1], false⟩ := by
  simp [replayLoopIter, get_next_action_boundary d f false false r r' hr hr' hlast hne]

lemma replayLoopIter_exhaust (d : List FrameRecord) (f st0 : Nat) (sv : List Nat)
    (r : FrameRecord) (hr : d[f]? = some r) (hlast : (d.length : ℤ) - 1 = (f : ℤ)) :
    replayLoopIter d ⟨f, st0, sv, false⟩ = some ⟨f, 0, sv ++ [st0 + 1], true⟩ := by
  simp [replayLoopIter, get_next_action_exhaust d f false false r hr hlast]

lemma runReplayLoop_add (d : List FrameRecord) (m n : Nat) : ∀ s : ReplayLoopState,
    runReplayLoop d (m + n) s =
      match runReplayLoop d m s with
      | none => none
      | some s' => runReplayLoop d n s' := by
  induction m with
  | zero => intro s; simp [runReplayLoop]
  | succ m ih =>
    intro s
    rw [show m + 1 + n = (m + n) + 1 from by omega]
    simp only [runReplayLoop]
    cases h : replayLoopIter d s with
    | none => rfl
    | some s' => exact ih s'

lemma runReplayLoop_advance_seg (d : List FrameRecord) (k : Nat) : ∀ (f st0 : Nat) (sv : List Nat),
    (∀ j, j < k →
      replayLoopIter d ⟨f + j, st0 + j, sv, false⟩ = some ⟨f + j + 1, st0 + j + 1, sv, false⟩) →
    runReplayLoop d k ⟨f, st0, sv, false⟩ = some ⟨f + k, st0 + k, sv, false⟩ := by
  induction k with
  | zero => intro f st0 sv _; simp [runReplayLoop]
  | succ k ih =>
    intro f st0 sv h
    have h0 := h 0 (Nat.succ_pos k)
    simp only [Nat.add_zero] at h0
    simp only [runReplayLoop, h0]
    have hrest := ih (f + 1) (st0 + 1) sv (fun j hj => by
      have hstep := h (j + 1) (by omega)
      rw [show f + (j + 1) = f + 1 + j from by omega,
        show st0 + (j + 1) = st0 + 1 + j from by omega] at hstep
      exact hstep)
    rw [hrest, show f + 1 + k = f + (k + 1) from by omega,
      show st0 + 1 + k = st0 + (k + 1) from by omega]

/-! ## Lemmas: shifting a replay run past a dataset prefix -/

lemma get_next_action_append (d₁ d₂ : List FrameRecord) (f : Nat) (c s : Bool) :
    get_next_action_in_episode (d₁ ++ d₂) (d₁.length + f) c s
      = (get_next_action_in_episode d₂ f c s).map (fun r => (r.1, d₁.length + r.2.1, r.2.2)) := by
  have h1 : (d₁ ++ d₂)[d₁.length + f]? = d₂[f]? := by
    rw [List.getElem?_append_right (by omega)]
    congr 1
    omega
  have h2 : (d₁ ++ d₂)[d₁.length + f + 1]? = d₂[f + 1]? := by
    rw [List.getElem?_append_right (by omega)]
    congr 1
    omega
  have h3 : is_at_last_frame_in_dataset (d₁ ++ d₂) (d₁.length + f)
      = is_at_last_frame_in_dataset d₂ f := by
    simp only [is_at_last_frame_in_dataset, List.length_append]
    exact decide_eq_decide.mpr (by omega)
  simp only [get_next_action_in_episode, get_action_at_frame, is_at_last_frame_in_episode,
    h1, h2, h3]
  cases hf : d₂[f]? with
  | none => rfl
  | some r =>
    cases hlf : is_at_last_frame_in_dataset d₂ f with
    | true => simp
    | false =>
      cases hf' : d₂[f + 1]? with
      | none => simp
      | some r' =>
        by_cases hne : r.episode_index = r'.episode_index <;> simp [hne] <;> omega

lemma replayLoopIter_append (d₁ d₂ : List FrameRecord) (s : ReplayLoopState) :
    replayLoopIter (d₁ ++ d₂) (shiftFrame d₁.length s)
      = (replayLoopIter d₂ s).map (shiftFrame d₁.length) := by
  by_cases hs : s.stopped
  · simp [replayLoopIter, shiftFrame, hs]
  · simp only [replayLoopIter, shiftFrame, hs, if_false]
    rw [get_next_action_append]
    cases h : get_next_action_in_episode d₂ s.frame_index false false with
    | none => rfl
    | some r =>
      obtain ⟨a, fi', conclude, stop⟩ := r
      cases conclude <;> simp [shiftFrame]

lemma runReplayLoop_append (d₁ d₂ : List FrameRecord) (n : Nat) : ∀ s : ReplayLoopState,
    runReplayLoop (d₁ ++ d₂) n (shiftFrame d₁.length s)
      = (runReplayLoop d₂ n s).map (shiftFrame d₁.length) := by
  induction n with
  | zero => intro s; simp [runReplayLoop]
  | succ n ih =>
    intro s
    simp only [runReplayLoop]
    rw [replayLoopIter_append]
    cases h : replayLoopIter d₂ s with
    | none => rfl
    | some s' => simp [ih s']

/-! ## Lemmas: the flattened episode-index column -/

lemma flatEpisodeIndices_length : ∀ (counts : List Nat) (i : Nat),
    (flatEpisodeIndices counts i).length = counts.sum
  | [], _ => rfl
  | c :: cs, i => by
    simp [flatEpisodeIndices, flatEpisodeIndices_length cs (i + 1)]

lemma flatEpisodeIndices_cons_lt {c : Nat} (cs : List Nat) (i : Nat) {f : Nat} (hf : f < c) :
    (flatEpisodeIndices (c :: cs) i)[f]? = some i := by
  simp only [flatEpisodeIndices]
  rw [List.getElem?_append_left (by simpa using hf)]
  simp [List.getElem?_replicate, hf]

lemma flatEpisodeIndices_cons_ge (c : Nat) (cs : List Nat) (i f : Nat) :
    (flatEpisodeIndices (c :: cs) i)[c + f]? = (flatEpisodeIndices cs (i + 1))[f]? := by
  simp only [flatEpisodeIndices]
  rw [List.getElem?_append_right (by simp)]
  congr 1
  simp

lemma record_of_column {d : List FrameRecord} {col : List Nat}
    (hm : d.map FrameRecord.episode_index = col) {f v : Nat} (hv : col[f]? = some v) :
    ∃ r, d[f]? = some r ∧ r.episode_index = v := by
  rw [← hm, List.getElem?_map] at hv
  exact Option.map_eq_some'.mp hv

/-- The heart of the replay claim: running the replay control loop for
`counts.sum` iterations over any dataset whose `episode_index` column
lists episodes of sizes `counts` (first episode index `i`) concludes and
saves exactly the episodes of `counts`, in order, ending stopped with the
cursor on the last row. -/
lemma replay_run_flat (counts : List Nat) : ∀ (i : Nat) (d : List FrameRecord) (sv : List Nat),
    counts ≠ [] → (∀ c ∈ counts, 1 ≤ c) →
    d.map FrameRecord.episode_index = flatEpisodeIndices counts i →
    runReplayLoop d counts.sum ⟨0, 0, sv, false⟩
      = some ⟨counts.sum - 1, 0, sv ++ counts, true⟩ := by
  induction counts with
  | nil => intro _ _ _ h; exact absurd rfl h
  | cons c cs ih =>
    intro i d sv _ hpos hm
    have hc : 1 ≤ c := hpos c (List.mem_cons_self c cs)
    have hdlen : d.length = c + cs.sum := by
      have h := congrArg List.length hm
      rw [List.length_map, flatEpisodeIndices_length] at h
      simpa using h
    have hrec : ∀ f, f < c → ∃ r, d[f]? = some r ∧ r.episode_index = i := fun f hf =>
      record_of_column hm (flatEpisodeIndices_cons_lt cs i hf)
    cases cs with
    | nil =>
      have hS : d.length = c := by simpa using hdlen
      have hadv : ∀ j, j < c - 1 →
          replayLoopIter d ⟨0 + j, 0 + j, sv, false⟩ = some ⟨0 + j + 1, 0 + j + 1, sv, false⟩ := by
        intro j hj
        obtain ⟨r, hr, hri⟩ := hrec j (by omega)
        obtain ⟨r', hr', hri'⟩ := hrec (j + 1) (by omega)
        simpa using replayLoopIter_plain d j j sv r r' hr hr'
          (by rw [hS]; omega) (by rw [hri, hri'])
      have hseg := runReplayLoop_advance_seg d (c - 1) 0 0 sv hadv
      simp only [Nat.zero_add] at hseg
      obtain ⟨r, hr, _⟩ := hrec (c - 1) (by omega)
      have hex := replayLoopIter_exhaust d (c - 1) (c - 1) sv r hr (by rw [hS]; omega)
      rw [show ([c] : List Nat).sum = (c - 1) + 1 from by simp; omega, runReplayLoop_add, hseg]
      simp only [runReplayLoop, hex]
      rw [show c - 1 + 1 = c from by omega]
    | cons c' cs' =>
      have hc' : 1 ≤ c' := hpos c' (by simp)
      have hcs_sum : 1 ≤ (c' :: cs').sum := by simp; omega
      obtain ⟨S, hS1, hdS⟩ : ∃ S, 1 ≤ S ∧ d.length = c + S := ⟨_, hcs_sum, hdlen⟩
      have hadv : ∀ j, j < c - 1 →
          replayLoopIter d ⟨0 + j, 0 + j, sv, false⟩ = some ⟨0 + j + 1, 0 + j + 1, sv, false⟩ := by
        intro j hj
        obtain ⟨r, hr, hri⟩ := hrec j (by omega)
        obtain ⟨r', hr', hri'⟩ := hrec (j + 1) (by omega)
        simpa using replayLoopIter_plain d j j sv r r' hr hr'
          (by rw [hdS]; omega) (by rw [hri, hri'])
      have hseg := runReplayLoop_advance_seg d (c - 1) 0 0 sv hadv
      simp only [Nat.zero_add] at hseg
      obtain ⟨r, hr, hri⟩ := hrec (c - 1) (by omega)
      have hcol_c : (flatEpisodeIndices (c :: c' :: cs') i)[c]? = some (i + 1) := by
        have h := flatEpisodeIndices_cons_ge c (c' :: cs') i 0
        rw [Nat.add_zero] at h
        rw [h]
        exact flatEpisodeIndices_cons_lt cs' (i + 1) hc'
      obtain ⟨r', hr', hri'⟩ := record_of_column hm hcol_c
      have hbd := replayLoopIter_boundary d (c - 1) (c - 1) sv r r'
        hr (by rw [show c - 1 + 1 = c from by omega]; exact hr')
        (by rw [hdS]; omega) (by rw [hri, hri']; omega)
      have hIH := ih (i + 1) (d.drop c) (sv ++ [c]) (by simp)
        (fun x hx => hpos x (List.mem_cons_of_mem c hx))
        (by
          rw [List.map_drop, hm]
          simp only [flatEpisodeIndices]
          exact List.drop_left' (List.length_replicate c i))
      have htake : (d.take c).length = c := by rw [List.length_take]; omega
      have hshift := runReplayLoop_append (d.take c) (d.drop c) ((c' :: cs').sum)
        ⟨0, 0, sv ++ [c], false⟩
      rw [List.take_append_drop, hIH, htake] at hshift
      simp only [Option.map_some', shiftFrame, Nat.add_zero] at hshift
      rw [show ((c :: c' :: cs') : List Nat).sum = (c - 1) + (1 + (c' :: cs').sum) from by
            simp; omega,
        runReplayLoop_add d (c - 1) (1 + (c' :: cs').sum), hseg]
      show runReplayLoop d (1 + (c' :: cs').sum) ⟨c - 1, c - 1, sv, false⟩ = _
      rw [runReplayLoop_add d 1 ((c' :: cs').sum)]
      simp only [runReplayLoop, hbd]
      rw [show c - 1 + 1 = c from by omega, hshift]
      simp only [Option.some.injEq, ReplayLoopState.mk.injEq]
      exact ⟨by omega, trivial, by simp, trivial⟩

/-! ## Lemmas: the recording loop's closed form -/

lemma save_episode_data_of_valid (st : OutputState) (e : EpisodeArgs) (ei : Nat)
    (hv : validEp e) :
    save_episode_data st e ei =
      some
        { ep_dicts := st.ep_dicts ++ [mkEpDict e ei]
          ep_from := st.ep_from ++ [st.id_from]
          ep_to := st.ep_to ++ [st.id_from + e.num_steps]
          episode_fps := st.episode_fps ++ [epFps e]
          id_from := st.id_from + e.num_steps
          id_to := st.id_from + e.num_steps } := by
  obtain ⟨hn, t, ht, ht0⟩ := hv
  simp [save_episode_data, hn, ht, ht0, epFps, lastTs]

lemma runRecordLoop_saves : ∀ (es : List EpisodeArgs) (r : RecordRun),
    (∀ e ∈ es, validEp e) → r.out.id_to = r.out.id_from →
    runRecordLoop r (es.map fun e => (false, e)) =
      some
        ⟨{ ep_dicts := r.out.ep_dicts ++ mkEpDicts r.episode_counter es
           ep_from := r.out.ep_from ++ fromOffsets r.out.id_from (es.map EpisodeArgs.num_steps)
           ep_to := r.out.ep_to ++ toOffsets r.out.id_from (es.map EpisodeArgs.num_steps)
           episode_fps := r.out.episode_fps ++ es.map epFps
           id_from := r.out.id_from + (es.map EpisodeArgs.num_steps).sum
           id_to := r.out.id_from + (es.map EpisodeArgs.num_steps).sum },
         r.episode_counter + es.length⟩ := by
  intro es
  induction es with
  | nil =>
    intro r _ hid
    simp only [List.map_nil, runRecordLoop, mkEpDicts, fromOffsets, toOffsets, List.sum_nil,
      List.length_nil, Nat.add_zero, List.append_nil]
    obtain ⟨⟨d1, d2, d3, d4, d5, d6⟩, ec⟩ := r
    simp_all
  | cons e es ih =>
    intro r hv hid
    have hsave := save_episode_data_of_valid r.out e r.episode_counter
      (hv e (List.mem_cons_self e es))
    simp only [List.map_cons, runRecordLoop, concludeEpisodeIteration, if_neg Bool.false_ne_true,
      hsave]
    rw [ih ⟨_, r.episode_counter + 1⟩ (fun x hx => hv x (List.mem_cons_of_mem e hx)) rfl]
    simp only [mkEpDicts, fromOffsets, toOffsets, List.map_cons, List.sum_cons,
      Option.some.injEq, RecordRun.mk.injEq, OutputState.mk.injEq]
    refine ⟨⟨by simp, by simp, by simp, by simp, by omega, by omega⟩, by simp; omega⟩

/-! ## Lemmas: pointwise description of the index ranges -/

lemma fromOffsets_length : ∀ (ns : List Nat) (a : Nat), (fromOffsets a ns).length = ns.length
  | [], _ => rfl
  | n :: ns, a => by simp [fromOffsets, fromOffsets_length ns (a + n)]

lemma toOffsets_length : ∀ (ns : List Nat) (a : Nat), (toOffsets a ns).length = ns.length
  | [], _ => rfl
  | n :: ns, a => by simp [toOffsets, toOffsets_length ns (a + n)]

lemma fromOffsets_getElem? : ∀ (ns : List Nat) (a k : Nat), k < ns.length →
    (fromOffsets a ns)[k]? = some (a + (ns.take k).sum)
  | [], _, k, hk => by simp at hk
  | n :: ns, a, 0, _ => by simp [fromOffsets]
  | n :: ns, a, k + 1, hk => by
    have := fromOffsets_getElem? ns (a + n) k (by simpa using hk)
    simp only [fromOffsets, List.getElem?_cons_succ, this, List.take_succ_cons, List.sum_cons]
    congr 1
    omega

lemma toOffsets_getElem? : ∀ (ns : List Nat) (a k : Nat), k < ns.length →
    (toOffsets a ns)[k]? = some (a + (ns.take (k + 1)).sum)
  | [], _, k, hk => by simp at hk
  | n :: ns, a, 0, _ => by simp [toOffsets]
  | n :: ns, a, k + 1, hk => by
    have := toOffsets_getElem? ns (a + n) k (by simpa using hk)
    simp only [toOffsets, List.getElem?_cons_succ, this, List.take_succ_cons, List.sum_cons]
    congr 1
    omega

lemma take_succ_sum_of_getElem? (ns : List Nat) (k n : Nat) (h : ns[k]? = some n) :
    (ns.take (k + 1)).sum = (ns.take k).sum + n := by
  rw [List.take_succ, List.sum_append, h]
  simp

/-! ## Lemmas: the consolidated episode-index column of a recorded run -/

lemma mkEpDicts_consolidated : ∀ (es : List EpisodeArgs) (ec : Nat),
    consolidatedEpisodeIndex (mkEpDicts ec es)
      = flatEpisodeIndices (es.map EpisodeArgs.num_steps) ec
  | [], _ => rfl
  | e :: es, ec => by
    simp only [mkEpDicts, consolidatedEpisodeIndex, List.map_cons, List.flatten_cons,
      flatEpisodeIndices]
    rw [← mkEpDicts_consolidated es (ec + 1)]
    rfl

lemma consolidated_length (ds : List EpDict) :
    (consolidatedEpisodeIndex ds).length = (ds.map fun d => d.episode_index.length).sum := by
  simp [consolidatedEpisodeIndex, List.length_flatten, List.map_map, Function.comp_def]

/-! ## Lemmas: remaining helpers -/

lemma validEp_of_save_some {st : OutputState} {e : EpisodeArgs} {ei : Nat} {st' : OutputState}
    (h : save_episode_data st e ei = some st') : validEp e := by
  by_cases hn : e.num_steps = 0
  · simp [save_episode_data, hn] at h
  · cases ht : e.timestamps.getLast? with
    | none => simp [save_episode_data, hn, ht] at h
    | some t =>
      by_cases ht0 : t = 0
      · simp [save_episode_data, hn, ht, ht0] at h
      · exact ⟨hn, t, ht, ht0⟩

lemma next_done_getElem_last (n : Nat) (hn : 1 ≤ n) :
    ((List.replicate n false).set (n - 1) true)[n - 1]? = some true := by
  rw [List.getElem?_set_self', List.getElem?_replicate]
  simp [show n - 1 < n from by omega]

lemma next_done_getElem_early (n k : Nat) (hk : k < n - 1) :
    ((List.replicate n false).set (n - 1) true)[k]? = some false := by
  rw [List.getElem?_set_ne (by omega), List.getElem?_replicate]
  simp [show k < n from by omega]

lemma set_up_data_keys_ok : ∀ (obs : List (String × List Nat)) (sk ik : List String),
    (∀ kv ∈ obs, kv.2.length = 1 ∨ kv.2.length = 3) →
    ∃ sk' ik', set_up_data_keys obs sk ik = .ok (sk', ik')
      ∧ (∀ k, k ∈ sk → k ∈ sk') ∧ (∀ k, k ∈ ik → k ∈ ik')
      ∧ ∀ kv ∈ obs, (kv.2.length = 1 ∧ kv.1 ∈ sk') ∨ (kv.2.length = 3 ∧ kv.1 ∈ ik')
  | [], sk, ik, _ => ⟨sk, ik, rfl, fun _ h => h, fun _ h => h, by simp⟩
  | (key, shape) :: rest, sk, ik, h => by
    rcases h (key, shape) (List.mem_cons_self _ _) with h1 | h3
    · obtain ⟨sk', ik', hok, hsk, hik, hcls⟩ :=
        set_up_data_keys_ok rest (sk ++ [key]) ik
          (fun kv hkv => h kv (List.mem_cons_of_mem _ hkv))
      refine ⟨sk', ik', ?_, fun k hk => hsk k (by simp [hk]), hik, ?_⟩
      · simpa [set_up_data_keys, h1] using hok
      · intro kv hkv
        rcases List.mem_cons.mp hkv with rfl | hkv'
        · exact Or.inl ⟨h1, hsk key (by simp)⟩
        · exact hcls kv hkv'
    · obtain ⟨sk', ik', hok, hsk, hik, hcls⟩ :=
        set_up_data_keys_ok rest sk (ik ++ [key])
          (fun kv hkv => h kv (List.mem_cons_of_mem _ hkv))
      refine ⟨sk', ik', ?_, hsk, fun k hk => hik k (by simp [hk]), ?_⟩
      · by_cases h1 : shape.length = 1
        · exact absurd h3 (by simp [h1])
        · simpa [set_up_data_keys, h1, h3] using hok
      · intro kv hkv
        rcases List.mem_cons.mp hkv with rfl | hkv'
        · exact Or.inr ⟨h3, hik key (by simp)⟩
        · exact hcls kv hkv'

lemma set_up_data_keys_error : ∀ (obs : List (String × List Nat)) (sk ik : List String),
    (∃ kv ∈ obs, kv.2.length ≠ 1 ∧ kv.2.length ≠ 3) →
    ∃ k, set_up_data_keys obs sk ik = .error k
  | [], _, _, h => by simp at h
  | (key, shape) :: rest, sk, ik, h => by
    by_cases h1 : shape.length = 1
    · obtain ⟨k, hk⟩ := set_up_data_keys_error rest (sk ++ [key]) ik (by
        obtain ⟨kv, hkv, hbad⟩ := h
        rcases List.mem_cons.mp hkv with rfl | hkv'
        · exact absurd h1 hbad.1
        · exact ⟨kv, hkv', hbad⟩)
      exact ⟨k, by simpa [set_up_data_keys, h1] using hk⟩
    · by_cases h3 : shape.length = 3
      · obtain ⟨k, hk⟩ := set_up_data_keys_error rest sk (ik ++ [key]) (by
          obtain ⟨kv, hkv, hbad⟩ := h
          rcases List.mem_cons.mp hkv with rfl | hkv'
          · exact absurd h3 hbad.2
          · exact ⟨kv, hkv', hbad⟩)
        exact ⟨k, by simpa [set_up_data_keys, h1, h3] using hk⟩
      · exact ⟨key, by simp [set_up_data_keys, h1, h3]⟩

lemma runInnerLoop_le : ∀ (oracle : Nat → Bool) (fuel sc : Nat) (conclude : Bool) (n : Nat),
    runInnerLoop oracle fuel sc conclude = some n → sc ≤ n
  | _, 0, sc, conclude, n => by
    intro h
    by_cases hc : conclude = true
    · simp [runInnerLoop, hc] at h
      omega
    · simp [runInnerLoop, hc] at h
  | oracle, fuel + 1, sc, conclude, n => by
    by_cases hc : conclude = true <;> intro h
    · simp [runInnerLoop, hc] at h
      omega
    · simp only [runInnerLoop, hc, if_false] at h
      have := runInnerLoop_le oracle fuel (sc + 1) (oracle sc) n h
      omega

lemma lt_length_of_getElem?_some {α : Type _} {l : List α} {k : Nat} {x : α}
    (h : l[k]? = some x) : k < l.length := by
  rcases List.getElem?_eq_some_iff.mp h with ⟨h1, _⟩
  exact h1

/-! # Claim theorems -/

/-- **C1** (invariants): for every run, the per-episode from/to index
ranges recorded by `save_episode_data` partition the consolidated dataset
contiguously, with no gaps or overlaps, in recording order: the first
saved episode's `from` is 0, each episode's `to` equals its `from` plus
its step count, each subsequent episode's `from` equals the previous
episode's `to`, and the sum of per-episode step counts equals the total
row count of the consolidated dataset. -/
theorem episode_ranges_partition_dataset (es : List EpisodeArgs) (st : RecordRun)
    (hv : ∀ e ∈ es, validEp e)
    (h : runRecordLoop initialRecordRun (es.map fun e => (false, e)) = some st) :
    (es ≠ [] → st.out.ep_from[0]? = some 0)
    ∧ st.out.ep_from.length = es.length
    ∧ st.out.ep_to.length = es.length
    ∧ (∀ (k : Nat) (e : EpisodeArgs) (f : Nat), es[k]? = some e →
        st.out.ep_from[k]? = some f →
        st.out.ep_to[k]? = some (f + e.num_steps))
    ∧ (∀ (k t : Nat), k + 1 < es.length → st.out.ep_to[k]? = some t →
        st.out.ep_from[k + 1]? = some t)
    ∧ (consolidatedEpisodeIndex st.out.ep_dicts).length
        = (es.map EpisodeArgs.num_steps).sum := by
  rw [runRecordLoop_saves es initialRecordRun hv rfl] at h
  obtain rfl := Option.some.inj h
  simp only [initialRecordRun, reset_dataset_temp_data, List.nil_append]
  have hlen : (es.map EpisodeArgs.num_steps).length = es.length := List.length_map _ _
  refine ⟨?_, ?_, ?_, ?_, ?_, ?_⟩
  · intro hne
    have hpos : 0 < es.length := List.length_pos.mpr hne
    rw [fromOffsets_getElem? _ 0 0 (by omega)]
    simp
  · rw [fromOffsets_length]
    exact hlen
  · rw [toOffsets_length]
    exact hlen
  · intro k e f hk hf
    have hklt : k < es.length := lt_length_of_getElem?_some hk
    have hns : (es.map EpisodeArgs.num_steps)[k]? = some e.num_steps := by
      rw [List.getElem?_map, hk]
      rfl
    rw [fromOffsets_getElem? _ 0 k (by omega)] at hf
    obtain rfl := Option.some.inj hf
    rw [toOffsets_getElem? _ 0 k (by omega), take_succ_sum_of_getElem? _ k e.num_steps hns]
    congr 1
    omega
  · intro k t hk1 ht
    rw [toOffsets_getElem? _ 0 k (by omega)] at ht
    obtain rfl := Option.some.inj ht
    rw [fromOffsets_getElem? _ 0 (k + 1) (by omega)]
  · rw [mkEpDicts_consolidated, flatEpisodeIndices_length]

/-- Witness for C1: instantiated at the concrete two-episode run
(episodes of 2 and 1 steps). -/
theorem episode_ranges_partition_dataset_witness :
    witnessRun.out.ep_from[0]? = some 0
    ∧ witnessRun.out.ep_to[0]? = some (0 + 2)
    ∧ (consolidatedEpisodeIndex witnessRun.out.ep_dicts).length
        = (witnessEpisodes.map EpisodeArgs.num_steps).sum := by
  have h := episode_ranges_partition_dataset witnessEpisodes witnessRun (by decide)
    (by
      norm_num [witnessEpisodes, witnessRun, initialRecordRun, reset_dataset_temp_data,
        runRecordLoop, concludeEpisodeIteration, save_episode_data, mkEpDict,
        List.getLast?_cons_cons]
      decide)
  exact ⟨h.1 (by decide),
    h.2.2.2.1 0 ⟨2, [[1], [2]], [5, 1]⟩ 0 (by decide) (h.1 (by decide)),
    h.2.2.2.2.2⟩

/-- **C2** (functional correctness): for every episode saved by
`save_episode_data` with `num_steps` steps, the stored `next.done` column
has exactly its last entry true and all other `num_steps - 1` entries
false. -/
theorem next_done_true_only_at_last (st : OutputState) (e : EpisodeArgs) (ei : Nat)
    (st' : OutputState) (h : save_episode_data st e ei = some st')
    (d : EpDict) (hd : st'.ep_dicts.getLast? = some d) :
    d.next_done.length = e.num_steps
    ∧ d.next_done[e.num_steps - 1]? = some true
    ∧ ∀ k, k < e.num_steps - 1 → d.next_done[k]? = some false := by
  have hv := validEp_of_save_some h
  have hn : 1 ≤ e.num_steps := by
    have := hv.1
    omega
  rw [save_episode_data_of_valid st e ei hv] at h
  obtain rfl := Option.some.inj h
  simp only [List.getLast?_concat, Option.some.injEq] at hd
  subst hd
  refine ⟨by simp [mkEpDict], ?_, ?_⟩
  · exact next_done_getElem_last e.num_steps hn
  · intro k hk
    exact next_done_getElem_early e.num_steps k hk

/-- Witness for C2: the saved 2-step witness episode has
`next.done = [false, true]`. -/
theorem next_done_true_only_at_last_witness :
    witnessEpDict.next_done.length = 2 ∧ witnessEpDict.next_done[2 - 1]? = some true := by
  have h := next_done_true_only_at_last reset_dataset_temp_data ⟨2, [[1], [2]], [5, 1]⟩ 0
    witnessSaved
    (by
      norm_num [witnessSaved, reset_dataset_temp_data, save_episode_data, mkEpDict,
        List.getLast?_cons_cons]
      decide)
    witnessEpDict (by decide)
  exact ⟨h.1, h.2.1⟩

/-- **C3, counterexample**: the claim says the cursor advances after
each call, but when `get_next_action_in_episode` finds the cursor at the
last stored step of the dataset it leaves the cursor unchanged: on a
one-row dataset the call at cursor 0 returns cursor 0, not 1. -/
theorem replay_cursor_advance_counterexample :
    get_next_action_in_episode oneRowDataset 0 false false = some ([5], 0, true, true)
    ∧ (get_next_action_in_episode oneRowDataset 0 false false).map (fun r => r.2.1)
        ≠ some (0 + 1) := by
  decide

/-- **C3, amended** (functional correctness): for every call to
`get_next_action_in_episode` with a replay source, the action stored at
the current cursor is returned; when the cursor is at the last stored
step of the dataset, both the conclude and stop flags are set and the
cursor is left unchanged; otherwise the cursor advances: when the next
recorded step belongs to a different episode index only the conclude
flag is set (stop is left as it was) and the cursor proceeds to the next
step, and within an episode the flags are left as they were. -/
theorem replay_cursor_contract_amended (d : List FrameRecord) (fi : Nat) (c s : Bool)
    (r : FrameRecord) (hr : d[fi]? = some r) :
    (fi = d.length - 1 → get_next_action_in_episode d fi c s = some (r.action, fi, true, true))
    ∧ (fi + 1 < d.length → ∀ r', d[fi + 1]? = some r' →
        (r.episode_index ≠ r'.episode_index →
          get_next_action_in_episode d fi c s = some (r.action, fi + 1, true, s))
        ∧ (r.episode_index = r'.episode_index →
          get_next_action_in_episode d fi c s = some (r.action, fi + 1, c, s))) := by
  have hfi : fi < d.length := lt_length_of_getElem?_some hr
  constructor
  · intro hlast
    exact get_next_action_exhaust d fi c s r hr (by omega)
  · intro hlt r' hr'
    exact ⟨fun hne => get_next_action_boundary d fi c s r r' hr hr' (by omega) hne,
      fun hsame => get_next_action_plain d fi c s r r' hr hr' (by omega) hsame⟩

/-- Witness for the amended C3: on the three-row dataset, the call at
cursor 1 (an episode boundary) returns the stored action, advances to
cursor 2 and sets only the conclude flag. -/
theorem replay_cursor_contract_amended_witness :
    get_next_action_in_episode witnessDataset 1 false false = some ([2], 2, true, false) := by
  have h := replay_cursor_contract_amended witnessDataset 1 false false ⟨[2], 0⟩ (by decide)
  exact (h.2 (by decide) ⟨[3], 1⟩ (by decide)).1 (by decide)

/-- **C4** (algebraic/relational): for every recorded dataset with at
least one episode, running the control loop in replay mode over that
dataset (no asynchronous flag changes) produces the same number of
episodes and the same per-episode step counts as were recorded: over any
dataset whose `episode_index` column is the recorded run's consolidated
column, the loop saves exactly `es.map num_steps` and stops. -/
theorem replay_reproduces_episode_counts (es : List EpisodeArgs) (st : RecordRun)
    (hne : es ≠ []) (hv : ∀ e ∈ es, validEp e)
    (h : runRecordLoop initialRecordRun (es.map fun e => (false, e)) = some st)
    (d : List FrameRecord)
    (hd : d.map FrameRecord.episode_index = consolidatedEpisodeIndex st.out.ep_dicts) :
    runReplayLoop d (es.map EpisodeArgs.num_steps).sum initReplayLoopState
      = some ⟨(es.map EpisodeArgs.num_steps).sum - 1, 0, es.map EpisodeArgs.num_steps, true⟩ := by
  rw [runRecordLoop_saves es initialRecordRun hv rfl] at h
  obtain rfl := Option.some.inj h
  simp only [initialRecordRun, reset_dataset_temp_data, List.nil_append] at hd
  rw [mkEpDicts_consolidated] at hd
  have hpos : ∀ n ∈ es.map EpisodeArgs.num_steps, 1 ≤ n := by
    intro n hn
    obtain ⟨e, he, rfl⟩ := List.mem_map.mp hn
    have := (hv e he).1
    omega
  have hmapne : es.map EpisodeArgs.num_steps ≠ [] := by
    simpa using hne
  exact replay_run_flat (es.map EpisodeArgs.num_steps) 0 d [] hmapne hpos hd

/-- Witness for C4: replaying the three-row witness dataset (episodes of
2 and 1 steps) saves the step counts `[2, 1]` and stops. -/
theorem replay_reproduces_episode_counts_witness :
    runReplayLoop witnessDataset ((witnessEpisodes.map EpisodeArgs.num_steps).sum)
        initReplayLoopState
      = some ⟨(witnessEpisodes.map EpisodeArgs.num_steps).sum - 1, 0,
          witnessEpisodes.map EpisodeArgs.num_steps, true⟩ :=
  replay_reproduces_episode_counts witnessEpisodes witnessRun (by decide) (by decide)
    (by
      norm_num [witnessEpisodes, witnessRun, initialRecordRun, reset_dataset_temp_data,
        runRecordLoop, concludeEpisodeIteration, save_episode_data, mkEpDict,
        List.getLast?_cons_cons]
      decide)
    witnessDataset (by decide)

/-- **C5** (frame effect): concluding an episode with the drop flag set
adds nothing to the consolidated dataset and shifts no episode indices:
the iteration returns the state (accumulated ep_dicts, from/to ranges,
episode counter) unchanged, and a run containing the dropped episode
equals the run without it — so the next saved episode receives the same
episode index it would have received had the drop never occurred. -/
theorem dropped_episode_has_no_effect (r : RecordRun) (e : EpisodeArgs) :
    concludeEpisodeIteration r true e = some r
    ∧ ∀ (pre post : List (Bool × EpisodeArgs)),
        runRecordLoop r (pre ++ (true, e) :: post) = runRecordLoop r (pre ++ post) := by
  refine ⟨rfl, ?_⟩
  intro pre post
  induction pre generalizing r with
  | nil => simp [runRecordLoop, concludeEpisodeIteration]
  | cons hd tl ih =>
    obtain ⟨b, e'⟩ := hd
    simp only [List.cons_append, runRecordLoop]
    cases concludeEpisodeIteration r b e' with
    | none => rfl
    | some r' => exact ih r'

/-- **C6** (functional correctness): for every finalized episode, the
fps stored for it is the step count divided by the final recorded
timestamp (the episode's recorded elapsed time), and every
`encode_video_frames` call for that episode's videos uses exactly that
stored value. -/
theorem episode_fps_from_final_timestamp (es : List EpisodeArgs) (st : RecordRun)
    (hv : ∀ e ∈ es, validEp e)
    (h : runRecordLoop initialRecordRun (es.map fun e => (false, e)) = some st)
    (k : Nat) (e : EpisodeArgs) (hk : es[k]? = some e)
    (t : ℚ) (ht : e.timestamps.getLast? = some t) :
    st.out.episode_fps[k]? = some ((e.num_steps : ℚ) / t)
    ∧ ∀ (image_keys : List String) (call : VideoEncodeCall),
        call ∈ encode_video_frames image_keys st.out.episode_fps → call.ep_idx = k →
        call.fps = (e.num_steps : ℚ) / t := by
  rw [runRecordLoop_saves es initialRecordRun hv rfl] at h
  obtain rfl := Option.some.inj h
  simp only [initialRecordRun, reset_dataset_temp_data, List.nil_append]
  have hfps : (es.map epFps)[k]? = some ((e.num_steps : ℚ) / t) := by
    rw [List.getElem?_map, hk]
    simp [epFps, lastTs, ht]
  refine ⟨hfps, ?_⟩
  intro image_keys call hc hidx
  rw [encode_video_frames, List.mem_flatMap] at hc
  obtain ⟨ep_idx, _, hcall⟩ := hc
  rw [List.mem_map] at hcall
  obtain ⟨kk, _, rfl⟩ := hcall
  simp only at hidx
  subst hidx
  simp only [List.getD_eq_getElem?_getD, hfps]
  rfl

/-- Witness for C6: in the witness run, the first episode (2 steps,
final timestamp 1) has stored fps `2 / 1`. -/
theorem episode_fps_from_final_timestamp_witness :
    witnessRun.out.episode_fps[0]? = some (((2 : Nat) : ℚ) / 1) := by
  have h := episode_fps_from_final_timestamp witnessEpisodes witnessRun (by decide)
    (by
      norm_num [witnessEpisodes, witnessRun, initialRecordRun, reset_dataset_temp_data,
        runRecordLoop, concludeEpisodeIteration, save_episode_data, mkEpDict,
        List.getLast?_cons_cons]
      decide)
    0 ⟨2, [[1], [2]], [5, 1]⟩ (by decide) 1 (by decide)
  exact h.1

lemma addToAction_eq (s : EpisodeState) (a : List ℚ) (i : Nat) (delta : ℚ)
    (ha : s.teleoperation_action = some a) (hi : i < a.length) :
    addToAction s i delta
      = some { s with teleoperation_action := some (a.set i (a.getD i 0 + delta)) } := by
  have hg : a[i]? = some (a.getD i 0) := by
    rw [List.getD_eq_getElem?_getD, List.getElem?_eq_getElem hi]
    rfl
  simp only [addToAction, ha, hg, Option.map_some']

/-- **C7** (functional correctness): each directional key event adds or
subtracts exactly `0.01` on the corresponding positional component
(indices 0-2) of the shared action vector, cmd/shift subtract or add
exactly `0.1` on the gripper component (index 3), delete sets drop and
conclude, home sets only conclude, end sets conclude and stop, and a
release of escape sets stop; each equation is a record update touching
no other state field, and the arithmetic applies to an arbitrary current
action vector — no bounds checking or clipping. -/
theorem keyboard_teleop_bindings (s : EpisodeState) (a : List ℚ)
    (h4 : a.length = 4) (ha : s.teleoperation_action = some a) :
    on_press .up s
      = some { s with teleoperation_action := some (a.set 1 (a.getD 1 0 + 1 / 100)) }
    ∧ on_press .down s
      = some { s with teleoperation_action := some (a.set 1 (a.getD 1 0 - 1 / 100)) }
    ∧ on_press .left s
      = some { s with teleoperation_action := some (a.set 0 (a.getD 0 0 - 1 / 100)) }
    ∧ on_press .right s
      = some { s with teleoperation_action := some (a.set 0 (a.getD 0 0 + 1 / 100)) }
    ∧ on_press .page_up s
      = some { s with teleoperation_action := some (a.set 2 (a.getD 2 0 + 1 / 100)) }
    ∧ on_press .page_down s
      = some { s with teleoperation_action := some (a.set 2 (a.getD 2 0 - 1 / 100)) }
    ∧ on_press .shift s
      = some { s with teleoperation_action := some (a.set 3 (a.getD 3 0 + 1 / 10)) }
    ∧ on_press .cmd s
      = some { s with teleoperation_action := some (a.set 3 (a.getD 3 0 - 1 / 10)) }
    ∧ on_press .delete s
      = some { s with is_dropping_episode := true, is_concluding_episode := true }
    ∧ on_press .home s = some { s with is_concluding_episode := true }
    ∧ on_press .endKey s
      = some { s with is_concluding_episode := true, is_stopping := true }
    ∧ on_release .esc s = { s with is_stopping := true } := by
  refine ⟨?_, ?_, ?_, ?_, ?_, ?_, ?_, ?_, rfl, rfl, rfl, rfl⟩
  · exact addToAction_eq s a 1 (1 / 100) ha (by omega)
  · rw [sub_eq_add_neg]
    exact addToAction_eq s a 1 (-(1 / 100)) ha (by omega)
  · rw [sub_eq_add_neg]
    exact addToAction_eq s a 0 (-(1 / 100)) ha (by omega)
  · exact addToAction_eq s a 0 (1 / 100) ha (by omega)
  · exact addToAction_eq s a 2 (1 / 100) ha (by omega)
  · rw [sub_eq_add_neg]
    exact addToAction_eq s a 2 (-(1 / 100)) ha (by omega)
  · exact addToAction_eq s a 3 (1 / 10) ha (by omega)
  · rw [sub_eq_add_neg]
    exact addToAction_eq s a 3 (-(1 / 10)) ha (by omega)

/-- Witness for C7: instantiated at the zeroed 4-component action
vector. -/
theorem keyboard_teleop_bindings_witness :
    on_press .up witnessTeleopState
      = some { witnessTeleopState with
          teleoperation_action :=
            some (([0, 0, 0, 0] : List ℚ).set 1 (([0, 0, 0, 0] : List ℚ).getD 1 0 + 1 / 100)) } :=
  (keyboard_teleop_bindings witnessTeleopState [0, 0, 0, 0] (by decide) rfl).1

/-- **C8** (error handling): for every observation map passed to
`set_up_data_keys` at setup, if any value's shape has a number of
dimensions other than 1 or 3 a `ValueError` is raised; otherwise no
error is raised and each key is classified as a state key
(1-dimensional) or an image key (3-dimensional). -/
theorem observation_shape_classification (observation : List (String × List Nat)) :
    ((∃ kv ∈ observation, kv.2.length ≠ 1 ∧ kv.2.length ≠ 3) →
      ∃ k, set_up_data_keys observation [] [] = .error k)
    ∧ ((∀ kv ∈ observation, kv.2.length = 1 ∨ kv.2.length = 3) →
      ∃ sk ik, set_up_data_keys observation [] [] = .ok (sk, ik)
        ∧ ∀ kv ∈ observation,
            (kv.2.length = 1 ∧ kv.1 ∈ sk) ∨ (kv.2.length = 3 ∧ kv.1 ∈ ik)) := by
  constructor
  · intro hbad
    exact set_up_data_keys_error observation [] [] hbad
  · intro hgood
    obtain ⟨sk, ik, hok, _, _, hcls⟩ := set_up_data_keys_ok observation [] [] hgood
    exact ⟨sk, ik, hok, hcls⟩

/-- Witness for C8: a well-shaped observation map classifies without
error, and one with a 2-dimensional value errors. -/
theorem observation_shape_classification_witness :
    (set_up_data_keys [("arm_qpos", [4]), ("image_front", [3, 64, 64])] [] []).isOk = true
    ∧ (set_up_data_keys [("bad", [2, 2])] [] []).isOk = false := by
  constructor
  · obtain ⟨sk, ik, hok, _⟩ :=
      (observation_shape_classification [("arm_qpos", [4]), ("image_front", [3, 64, 64])]).2
        (by decide)
    rw [hok]
    rfl
  · obtain ⟨k, herr⟩ :=
      (observation_shape_classification [("bad", [2, 2])]).1 (by decide)
    rw [herr]
    rfl

/-- **C9** (safety): for every replay over a non-empty dataset, a cursor
within `num_samples - 1` makes every dataset access of
`get_next_action_in_episode` succeed (the boundary check, which reads
the record at `frame_index + 1`, is only reached when the exhaustion
check was false), and the returned cursor again never exceeds
`num_samples - 1`. -/
theorem replay_dataset_accesses_in_bounds (d : List FrameRecord) (hne : d ≠ [])
    (fi : Nat) (hfi : fi ≤ d.length - 1) (c s : Bool) :
    ∃ a fi' c' s', get_next_action_in_episode d fi c s = some (a, fi', c', s')
      ∧ fi' ≤ d.length - 1 := by
  have hlen : 1 ≤ d.length := List.length_pos.mpr hne
  have hflt : fi < d.length := by omega
  obtain ⟨r, hr⟩ : ∃ r, d[fi]? = some r := ⟨d[fi], List.getElem?_eq_getElem hflt⟩
  by_cases hlast : fi = d.length - 1
  · exact ⟨r.action, fi, true, true,
      get_next_action_exhaust d fi c s r hr (by omega), by omega⟩
  · have hlt : fi + 1 < d.length := by omega
    obtain ⟨r', hr'⟩ : ∃ r', d[fi + 1]? = some r' := ⟨d[fi + 1], List.getElem?_eq_getElem hlt⟩
    by_cases hsame : r.episode_index = r'.episode_index
    · exact ⟨r.action, fi + 1, c, s,
        get_next_action_plain d fi c s r r' hr hr' (by omega) hsame, by omega⟩
    · exact ⟨r.action, fi + 1, true, s,
        get_next_action_boundary d fi c s r r' hr hr' (by omega) hsame, by omega⟩

/-- Witness for C9: on the three-row dataset the call at the final
cursor position succeeds. -/
theorem replay_dataset_accesses_in_bounds_witness :
    (get_next_action_in_episode witnessDataset 2 false false).isSome = true := by
  obtain ⟨a, fi', c', s', heq, _⟩ :=
    replay_dataset_accesses_in_bounds witnessDataset (by decide) 2 (by decide) false false
  rw [heq]
  rfl

/-- **C10** (safety): `save_episode_data` is only well-defined for
episodes with at least one step — with zero steps it fails (the Python
code raises on `next_done[-1]`), and with at least one step, a nonempty
timestamp list and a nonzero final timestamp it succeeds; and under the
sequential control loop the step-count precondition holds for every
saved episode, because the conclude flag is cleared before the inner
loop, so any terminating inner loop records at least one step. -/
theorem save_episode_preconditions :
    (∀ (st : OutputState) (e : EpisodeArgs) (ei : Nat), e.num_steps = 0 →
      save_episode_data st e ei = none)
    ∧ (∀ (st : OutputState) (e : EpisodeArgs) (ei : Nat) (t : ℚ), e.num_steps ≠ 0 →
        e.timestamps.getLast? = some t → t ≠ 0 →
        (save_episode_data st e ei).isSome = true)
    ∧ (∀ (oracle : Nat → Bool) (fuel n : Nat),
        runInnerLoop oracle fuel 0 false = some n → 1 ≤ n) := by
  refine ⟨?_, ?_, ?_⟩
  · intro st e ei hn
    simp [save_episode_data, hn]
  · intro st e ei t hn ht ht0
    rw [save_episode_data_of_valid st e ei ⟨hn, t, ht, ht0⟩]
    rfl
  · intro oracle fuel n h
    cases fuel with
    | zero => simp [runInnerLoop] at h
    | succ fuel =>
      simp only [runInnerLoop, Bool.false_eq_true, if_false] at h
      have := runInnerLoop_le oracle fuel 1 (oracle 0) n h
      omega

/-- Witness for C10: a zero-step save fails, the 2-step witness save
succeeds, and a concrete terminating inner loop records at least one
step. -/
theorem save_episode_preconditions_witness :
    save_episode_data reset_dataset_temp_data ⟨0, [], []⟩ 0 = none
    ∧ (save_episode_data reset_dataset_temp_data ⟨2, [[1], [2]], [5, 1]⟩ 0).isSome = true
    ∧ 1 ≤ 3 := by
  refine ⟨save_episode_preconditions.1 reset_dataset_temp_data ⟨0, [], []⟩ 0 rfl,
    save_episode_preconditions.2.1 reset_dataset_temp_data ⟨2, [[1], [2]], [5, 1]⟩ 0 1
      (by decide) (by decide) (by decide),
    save_episode_preconditions.2.2 (fun k => k == 2) 10 3 (by decide)⟩

end RecordReplay
